import Mathlib

set_option maxRecDepth 8000

/-!
Verification of the deployment orchestration engine in `deploy/deploy.go`
(package `deploy` of the kne repository).

The Go code is shallowly embedded: pure helpers (`inc`, `makeConfig`,
IP formatting) become Lean functions on `List Nat` byte sequences; the
watch-based health checks become functions over an explicit list of
received events plus a terminator describing how the blocking select
ends; the effectful deploy routines become state-passing functions over
explicit oracles for external-command results and cluster-API state,
returning the trace of calls they performed together with their result.
-/

namespace Deploy

/-! ### Byte-wise IP increment (`inc` in deploy.go)

Go source:
```
func inc(ip net.IP, cnt int) {
    for cnt > 0 {
        for j := len(ip) - 1; j >= 0; j-- {
            ip[j]++
            if ip[j] > 0 {
                break
            }
        }
        cnt--
    }
}
```
A `net.IP` is a byte slice; we model it as `List Nat` with every entry
`< 256`, and the `ip[j]++` byte overflow as `% 256`.  The inner loop
walks from the last octet towards the first and stops at the first
octet that did not wrap to zero; `incRev` is that inner loop expressed
on the reversed (little-endian-first) list. -/

/-- Inner carry loop of `inc` on the reversed byte list: increment the
head octet mod 256 and keep carrying while the incremented octet
wrapped to zero. -/
def incRev : List Nat → List Nat
  | [] => []
  | b :: rest =>
    let b' := (b + 1) % 256
    if b' > 0 then b' :: rest else b' :: incRev rest

/-- One pass of the inner loop of `inc` on a big-endian byte list:
increment the last octet, carrying leftwards. -/
def incOnce (ip : List Nat) : List Nat := (incRev ip.reverse).reverse

/-- The function `inc(ip, cnt)` of deploy.go: apply the carry loop
`cnt` times.  (The Go loop `for cnt > 0 ... cnt--` runs `cnt` times
when `cnt ≥ 0` and not at all otherwise; `incInt` below handles the
signed count.) -/
def inc (ip : List Nat) : Nat → List Nat
  | 0 => ip
  | Nat.succ n => inc (incOnce ip) n

/-- Version of `inc` with the Go `int` count: a non-positive count leaves the
address unchanged, as the `for cnt > 0` loop never runs. -/
def incInt (ip : List Nat) (cnt : Int) : List Nat := inc ip cnt.toNat

/-- Little-endian value of a byte list (head is least significant). -/
def leValue : List Nat → Nat
  | [] => 0
  | b :: rest => b + 256 * leValue rest

/-- Big-endian value of a byte list, the integer a `net.IP` denotes. -/
def beValue (l : List Nat) : Nat := leValue l.reverse

/-- All entries of a byte list are genuine octets. -/
def Octets (l : List Nat) : Prop := ∀ x ∈ l, x < 256

instance (l : List Nat) : Decidable (Octets l) :=
  inferInstanceAs (Decidable (∀ x ∈ l, x < 256))

theorem incRev_length (l : List Nat) : (incRev l).length = l.length := by
  induction l with
  | nil => rfl
  | cons b rest ih =>
    simp only [incRev]
    split <;> simp [ih]

theorem incRev_octets (l : List Nat) (h : Octets l) : Octets (incRev l) := by
  induction l with
  | nil => intro x hx; simp [incRev] at hx
  | cons b rest ih =>
    intro x hx
    simp only [incRev] at hx
    split at hx
    · rcases List.mem_cons.1 hx with hx | hx
      · subst hx; exact Nat.mod_lt _ (by norm_num)
      · exact h x (List.mem_cons_of_mem _ hx)
    · rcases List.mem_cons.1 hx with hx | hx
      · subst hx; exact Nat.mod_lt _ (by norm_num)
      · exact ih (fun y hy => h y (List.mem_cons_of_mem _ hy)) x hx

theorem leValue_lt (l : List Nat) (h : Octets l) : leValue l < 256 ^ l.length := by
  induction l with
  | nil => simp [leValue]
  | cons b rest ih =>
    have hb : b < 256 := h b (List.mem_cons_self _ _)
    have hr : leValue rest < 256 ^ rest.length :=
      ih fun x hx => h x (List.mem_cons_of_mem _ hx)
    simp only [leValue, List.length_cons, pow_succ]
    calc b + 256 * leValue rest < 256 + 256 * leValue rest := by omega
      _ ≤ 256 * 256 ^ rest.length := by omega
      _ = 256 ^ rest.length * 256 := by ring

theorem incRev_leValue (l : List Nat) (h : Octets l) :
    leValue (incRev l) = (leValue l + 1) % 256 ^ l.length := by
  induction l with
  | nil => simp [incRev, leValue]
  | cons b rest ih =>
    have hb : b < 256 := h b (List.mem_cons_self _ _)
    have hoct : Octets rest := fun x hx => h x (List.mem_cons_of_mem _ hx)
    have hr : leValue rest < 256 ^ rest.length := leValue_lt rest hoct
    simp only [incRev]
    by_cases hcase : b + 1 < 256
    · have hmod : (b + 1) % 256 = b + 1 := Nat.mod_eq_of_lt hcase
      rw [hmod, if_pos (show b + 1 > 0 by omega)]
      simp only [leValue, List.length_cons, pow_succ]
      have hlt : b + 256 * leValue rest + 1 < 256 ^ rest.length * 256 := by
        have h1 : 1 ≤ 256 ^ rest.length := Nat.one_le_pow _ _ (by norm_num)
        nlinarith
      rw [Nat.mod_eq_of_lt hlt]
      omega
    · have hb255 : b = 255 := by omega
      subst hb255
      have hmod : (255 + 1) % 256 = 0 := by norm_num
      rw [hmod, if_neg (by omega : ¬ (0 : Nat) > 0)]
      simp only [leValue, ih hoct, List.length_cons, pow_succ]
      have h2 : (255 + 256 * leValue rest + 1) = 256 * (leValue rest + 1) := by ring
      rw [h2, mul_comm (256 ^ rest.length) 256, Nat.mul_mod_mul_left]
      exact Nat.zero_add _

theorem incOnce_length (ip : List Nat) : (incOnce ip).length = ip.length := by
  simp [incOnce, incRev_length]

theorem incOnce_octets (ip : List Nat) (h : Octets ip) : Octets (incOnce ip) := by
  intro x hx
  simp only [incOnce, List.mem_reverse] at hx
  exact incRev_octets _ (fun y hy => h y (List.mem_reverse.1 hy)) x hx

theorem incOnce_beValue (ip : List Nat) (h : Octets ip) :
    beValue (incOnce ip) = (beValue ip + 1) % 256 ^ ip.length := by
  simp only [incOnce, beValue, List.reverse_reverse]
  rw [incRev_leValue _ (fun y hy => h y (List.mem_reverse.1 hy))]
  simp

theorem inc_length (ip : List Nat) (n : Nat) : (inc ip n).length = ip.length := by
  induction n generalizing ip with
  | zero => rfl
  | succ n ih => simp [inc, ih, incOnce_length]

theorem inc_octets (ip : List Nat) (n : Nat) (h : Octets ip) : Octets (inc ip n) := by
  induction n generalizing ip with
  | zero => exact h
  | succ n ih => exact ih _ (incOnce_octets _ h)

/-- Core arithmetic fact about `inc`: repeated byte-wise carry increment
is addition modulo `256 ^ length` on the big-endian value. -/
theorem inc_beValue (ip : List Nat) (n : Nat) (h : Octets ip) :
    beValue (inc ip n) = (beValue ip + n) % 256 ^ ip.length := by
  induction n generalizing ip with
  | zero =>
    have : beValue ip < 256 ^ ip.length := by
      simpa [beValue] using leValue_lt ip.reverse
        (fun y hy => h y (List.mem_reverse.1 hy))
    simp [inc, Nat.mod_eq_of_lt this]
  | succ n ih =>
    have h1 := ih (incOnce ip) (incOnce_octets _ h)
    rw [inc, h1, incOnce_length, incOnce_beValue _ h, Nat.mod_add_mod]
    ring_nf

theorem inc_add (ip : List Nat) (m n : Nat) : inc (inc ip m) n = inc ip (m + n) := by
  induction m generalizing ip with
  | zero => simp [inc]
  | succ m ih =>
    simp only [inc, Nat.succ_add]
    exact ih (incOnce ip)

/-! ### MetalLB address-pool computation (`makeConfig` in deploy.go) -/

/-- String rendering of a 4-byte IPv4 address in dotted decimal, as
`net.IP.String` produces for the addresses `makeConfig` handles. -/
def ip4String (l : List Nat) : String := String.intercalate "." (l.map toString)

/-- The projection of `*net.IPNet` that `makeConfig` reads: the
(masked) base address bytes of the subnet. -/
structure IPNet where
  ip : List Nat
deriving DecidableEq, Repr

/-- The `pool` struct of deploy.go. -/
structure Pool where
  name : String
  protocol : String
  addresses : List String
deriving DecidableEq, Repr

/-- The `metalLBConfig` struct of deploy.go. -/
structure MetalLBConfig where
  addressPools : List Pool
deriving DecidableEq, Repr

/-- The function `makeConfig(n, count)` of deploy.go: copy the subnet
base address, advance it by 50, copy that, advance by `count`, and emit
a single layer2 pool named "default" whose one address entry is
"start - end". -/
def makeConfig (n : IPNet) (count : Int) : MetalLBConfig :=
  let start := inc n.ip 50
  let stop := incInt start count
  { addressPools :=
      [{ name := "default"
         protocol := "layer2"
         addresses := [ip4String start ++ " - " ++ ip4String stop] }] }

/-- C3: For every IPv4 address A (a 4-byte sequence) and every
non-negative integer N, `inc` applied to A with count N yields the
address whose big-endian integer value equals the big-endian value of A
plus N, modulo 2^32, with carry propagating from the least-significant
octet upward. -/
theorem inc_is_addition_mod_2pow32 (ip : List Nat) (N : Nat)
    (hlen : ip.length = 4) (hoct : Octets ip) :
    beValue (inc ip N) = (beValue ip + N) % 2 ^ 32 := by
  have h := inc_beValue ip N hoct
  rw [hlen] at h
  norm_num at h ⊢
  exact h

/-- Witness for C3 at the concrete address 172.18.0.0 and count 50. -/
theorem inc_is_addition_mod_2pow32_witness :
    beValue (inc [172, 18, 0, 0] 50) = (beValue [172, 18, 0, 0] + 50) % 2 ^ 32 :=
  inc_is_addition_mod_2pow32 [172, 18, 0, 0] 50 (by decide) (by decide)

/-- C4: `makeConfig` on a subnet with 4-byte base address B and pool
size count produces a single address pool named "default" with protocol
"layer2" whose single range string is "B+50 - B+50+count" (byte-wise
big-endian increment, i.e. addition mod 2^32 on the address value); in
particular on 172.18.0.0/16 with count 10 it yields
"172.18.0.50 - 172.18.0.60". -/
theorem makeConfig_address_pool :
    (∀ (b : List Nat) (count : Nat), b.length = 4 → Octets b →
      ∃ s e : List Nat,
        makeConfig ⟨b⟩ (count : Int) =
          ⟨[⟨"default", "layer2", [ip4String s ++ " - " ++ ip4String e]⟩]⟩ ∧
        beValue s = (beValue b + 50) % 2 ^ 32 ∧
        beValue e = (beValue b + 50 + count) % 2 ^ 32) ∧
    makeConfig ⟨[172, 18, 0, 0]⟩ 10 =
      ⟨[⟨"default", "layer2", ["172.18.0.50 - 172.18.0.60"]⟩]⟩ := by
  constructor
  · intro b count hlen hoct
    refine ⟨inc b 50, inc (inc b 50) count, ?_, ?_, ?_⟩
    · simp [makeConfig, incInt]
    · exact inc_is_addition_mod_2pow32 b 50 hlen hoct
    · rw [inc_add]
      have := inc_is_addition_mod_2pow32 b (50 + count) hlen hoct
      rw [this, ← Nat.add_assoc]
  · rfl

/-- Witness for C4 at base address 172.18.0.0 and count 10. -/
theorem makeConfig_address_pool_witness :
    ∃ s e : List Nat,
      makeConfig ⟨[172, 18, 0, 0]⟩ ((10 : Nat) : Int) =
        ⟨[⟨"default", "layer2", [ip4String s ++ " - " ++ ip4String e]⟩]⟩ ∧
      beValue s = (beValue [172, 18, 0, 0] + 50) % 2 ^ 32 ∧
      beValue e = (beValue [172, 18, 0, 0] + 50 + 10) % 2 ^ 32 :=
  makeConfig_address_pool.1 [172, 18, 0, 0] 10 (by decide) (by decide)

/-! ### Health watches (`deploymentHealthy`, `MeshnetSpec.Healthy`)

Both functions run the same blocking loop:
```
for {
    select {
    case <-ctx.Done():
        return fmt.Errorf("context canceled before healthy")
    case e, ok := <-ch:
        if !ok {
            return fmt.Errorf("watch channel closed before healthy")
        }
        d, ok := e.Object.(<expected type>)
        if !ok {
            return fmt.Errorf("invalid object type: %T", d)
        }
        if <ready predicate on d> {
            return nil
        }
    }
}
```
A finite run of this loop is determined by the list of objects actually
delivered on the channel and by how the select ends once they are
exhausted (context fires, or the channel is closed).  `watchRun` is
that loop shape; the two health checks instantiate it with their
respective object types and readiness predicates. -/

/-- An object delivered on a watch result channel: either a value of
the expected kind, or a value of some other type (the failed type
assertion branch). -/
inductive WatchObj (α : Type)
  | expected (d : α)
  | other
deriving DecidableEq, Repr

/-- How the blocking select ends when no delivered object has already
terminated the loop: the context fires, or the channel is closed. -/
inductive WatchEnd
  | ctxCancelled
  | streamClosed
deriving DecidableEq, Repr

/-- The four ways a health-watch loop returns. -/
inductive WatchResult
  | healthy
  | errCancelled
  | errClosed
  | errInvalidType
deriving DecidableEq, Repr

/-- The shared watch-loop shape of `deploymentHealthy` and
`MeshnetSpec.Healthy`: scan delivered objects in order, fail on the
first object of the wrong type, succeed on the first ready object, and
otherwise report how the select ended. -/
def watchRun {α : Type} (ready : α → Bool) :
    List (WatchObj α) → WatchEnd → WatchResult
  | [], WatchEnd.ctxCancelled => WatchResult.errCancelled
  | [], WatchEnd.streamClosed => WatchResult.errClosed
  | WatchObj.other :: _, _ => WatchResult.errInvalidType
  | WatchObj.expected d :: rest, stop =>
    if ready d then WatchResult.healthy else watchRun ready rest stop

/-- Every delivered object is of the expected kind and fails the
readiness test: the loop consumes such a stream without returning. -/
def AllUnready {α : Type} (ready : α → Bool) (l : List (WatchObj α)) : Prop :=
  ∀ o ∈ l, ∃ d, o = WatchObj.expected d ∧ ready d = false

theorem watchRun_healthy_iff {α : Type} (ready : α → Bool)
    (evts : List (WatchObj α)) (stop : WatchEnd) :
    watchRun ready evts stop = WatchResult.healthy ↔
      ∃ pre d post, evts = pre ++ WatchObj.expected d :: post ∧
        AllUnready ready pre ∧ ready d = true := by
  induction evts with
  | nil =>
    constructor
    · intro h; cases stop <;> simp [watchRun] at h
    · rintro ⟨pre, d, post, h, -, -⟩
      exact absurd h (by simp)
  | cons o rest ih =>
    cases o with
    | other =>
      constructor
      · intro h; simp [watchRun] at h
      · rintro ⟨pre, d, post, h, hpre, -⟩
        cases pre with
        | nil => simp at h
        | cons p pre' =>
          simp only [List.cons_append, List.cons.injEq] at h
          obtain ⟨d', hd', -⟩ := hpre p (List.mem_cons_self _ _)
          rw [← h.1] at hd'
          exact absurd hd' (by simp)
    | expected d0 =>
      by_cases hr : ready d0
      · simp only [watchRun, if_pos hr, true_iff]
        exact ⟨[], d0, rest, by simp, by intro o ho; simp at ho, hr⟩
      · simp only [watchRun, if_neg hr]
        rw [ih]
        constructor
        · rintro ⟨pre, d, post, h, hpre, hd⟩
          refine ⟨WatchObj.expected d0 :: pre, d, post, by simp [h], ?_, hd⟩
          intro o ho
          rcases List.mem_cons.1 ho with h' | h'
          · exact ⟨d0, h', by simpa using hr⟩
          · exact hpre o h'
        · rintro ⟨pre, d, post, h, hpre, hd⟩
          cases pre with
          | nil =>
            simp only [List.nil_append, List.cons.injEq] at h
            obtain rfl : d0 = d := by simpa using h.1
            exact absurd hd (by simpa using hr)
          | cons p pre' =>
            simp only [List.cons_append, List.cons.injEq] at h
            exact ⟨pre', d, post, h.2, fun o ho =>
              hpre o (List.mem_cons_of_mem _ ho), hd⟩

theorem watchRun_cancelled_iff {α : Type} (ready : α → Bool)
    (evts : List (WatchObj α)) (stop : WatchEnd) :
    watchRun ready evts stop = WatchResult.errCancelled ↔
      stop = WatchEnd.ctxCancelled ∧ AllUnready ready evts := by
  induction evts with
  | nil =>
    cases stop <;>
      simp [watchRun, AllUnready]
  | cons o rest ih =>
    cases o with
    | other =>
      simp only [watchRun]
      constructor
      · intro h; exact absurd h (by simp)
      · rintro ⟨-, hall⟩
        obtain ⟨d', hd', -⟩ := hall _ (List.mem_cons_self _ _)
        exact absurd hd' (by simp)
    | expected d0 =>
      by_cases hr : ready d0
      · simp only [watchRun, if_pos hr]
        constructor
        · intro h; exact absurd h (by simp)
        · rintro ⟨-, hall⟩
          obtain ⟨d', hd', hrd'⟩ := hall _ (List.mem_cons_self _ _)
          obtain rfl : d0 = d' := by simpa using hd'
          rw [hr] at hrd'; exact absurd hrd' (by simp)
      · simp only [watchRun, if_neg hr]
        rw [ih]
        constructor
        · rintro ⟨hstop, hall⟩
          refine ⟨hstop, fun o ho => ?_⟩
          rcases List.mem_cons.1 ho with h' | h'
          · exact ⟨d0, h', by simpa using hr⟩
          · exact hall o h'
        · rintro ⟨hstop, hall⟩
          exact ⟨hstop, fun o ho => hall o (List.mem_cons_of_mem _ ho)⟩

theorem watchRun_closed_iff {α : Type} (ready : α → Bool)
    (evts : List (WatchObj α)) (stop : WatchEnd) :
    watchRun ready evts stop = WatchResult.errClosed ↔
      stop = WatchEnd.streamClosed ∧ AllUnready ready evts := by
  induction evts with
  | nil =>
    cases stop <;>
      simp [watchRun, AllUnready]
  | cons o rest ih =>
    cases o with
    | other =>
      simp only [watchRun]
      constructor
      · intro h; exact absurd h (by simp)
      · rintro ⟨-, hall⟩
        obtain ⟨d', hd', -⟩ := hall _ (List.mem_cons_self _ _)
        exact absurd hd' (by simp)
    | expected d0 =>
      by_cases hr : ready d0
      · simp only [watchRun, if_pos hr]
        constructor
        · intro h; exact absurd h (by simp)
        · rintro ⟨-, hall⟩
          obtain ⟨d', hd', hrd'⟩ := hall _ (List.mem_cons_self _ _)
          obtain rfl : d0 = d' := by simpa using hd'
          rw [hr] at hrd'; exact absurd hrd' (by simp)
      · simp only [watchRun, if_neg hr]
        rw [ih]
        constructor
        · rintro ⟨hstop, hall⟩
          refine ⟨hstop, fun o ho => ?_⟩
          rcases List.mem_cons.1 ho with h' | h'
          · exact ⟨d0, h', by simpa using hr⟩
          · exact hall o h'
        · rintro ⟨hstop, hall⟩
          exact ⟨hstop, fun o ho => hall o (List.mem_cons_of_mem _ ho)⟩

theorem watchRun_invalidType_iff {α : Type} (ready : α → Bool)
    (evts : List (WatchObj α)) (stop : WatchEnd) :
    watchRun ready evts stop = WatchResult.errInvalidType ↔
      ∃ pre post, evts = pre ++ WatchObj.other :: post ∧
        AllUnready ready pre := by
  induction evts with
  | nil =>
    constructor
    · intro h; cases stop <;> simp [watchRun] at h
    · rintro ⟨pre, post, h, -⟩
      exact absurd h (by simp)
  | cons o rest ih =>
    cases o with
    | other =>
      constructor
      · intro _
        exact ⟨[], rest, by simp, by intro o ho; simp at ho⟩
      · intro _
        cases stop <;> rfl
    | expected d0 =>
      by_cases hr : ready d0
      · simp only [watchRun, if_pos hr]
        constructor
        · intro h; exact absurd h (by simp)
        · rintro ⟨pre, post, h, hpre⟩
          cases pre with
          | nil => simp at h
          | cons p pre' =>
            simp only [List.cons_append, List.cons.injEq] at h
            obtain ⟨d', hd', hrd'⟩ := hpre p (List.mem_cons_self _ _)
            rw [← h.1] at hd'
            obtain rfl : d0 = d' := by simpa using hd'
            rw [hr] at hrd'; exact absurd hrd' (by simp)
      · simp only [watchRun, if_neg hr]
        rw [ih]
        constructor
        · rintro ⟨pre, post, h, hpre⟩
          refine ⟨WatchObj.expected d0 :: pre, post, by simp [h], ?_⟩
          intro o ho
          rcases List.mem_cons.1 ho with h' | h'
          · exact ⟨d0, h', by simpa using hr⟩
          · exact hpre o h'
        · rintro ⟨pre, post, h, hpre⟩
          cases pre with
          | nil => simp at h
          | cons p pre' =>
            simp only [List.cons_append, List.cons.injEq] at h
            exact ⟨pre', post, h.2, fun o ho =>
              hpre o (List.mem_cons_of_mem _ ho)⟩

/-- The fields of `*appsv1.Deployment` that `deploymentHealthy` reads:
the nullable `Spec.Replicas` pointer and five status counters (all
int32 in Go, embedded as `Int`). -/
structure DeploymentObj where
  specReplicas : Option Int
  availableReplicas : Int
  readyReplicas : Int
  unavailableReplicas : Int
  replicas : Int
  updatedReplicas : Int
deriving DecidableEq, Repr

/-- Readiness test of `deploymentHealthy`: desired replicas default to
1 when `Spec.Replicas` is nil, and the five status counters must line
up (in the order the Go condition checks them). -/
def deploymentReady (d : DeploymentObj) : Bool :=
  let r := d.specReplicas.getD 1
  d.availableReplicas == r && d.readyReplicas == r &&
    d.unavailableReplicas == 0 && d.replicas == r && d.updatedReplicas == r

/-- The loop of `deploymentHealthy` (deploy.go) over the delivered
events. -/
def deploymentHealthy (evts : List (WatchObj DeploymentObj)) (stop : WatchEnd) :
    WatchResult :=
  watchRun deploymentReady evts stop

/-- The fields of `*appsv1.DaemonSet` that `MeshnetSpec.Healthy` reads. -/
structure DaemonSetObj where
  desiredNumberScheduled : Int
  numberReady : Int
  numberUnavailable : Int
deriving DecidableEq, Repr

/-- Readiness test of `MeshnetSpec.Healthy`:
`NumberReady == DesiredNumberScheduled && NumberUnavailable == 0`. -/
def daemonSetReady (d : DaemonSetObj) : Bool :=
  d.numberReady == d.desiredNumberScheduled && d.numberUnavailable == 0

/-- The loop of `MeshnetSpec.Healthy` (deploy.go) over the delivered
events. -/
def meshnetHealthy (evts : List (WatchObj DaemonSetObj)) (stop : WatchEnd) :
    WatchResult :=
  watchRun daemonSetReady evts stop

/-- C1: `deploymentHealthy` returns success exactly on the first event
whose deployment has the five replica counters equal to the desired
count (`Spec.Replicas`, defaulting to 1 when nil) and
UnavailableReplicas zero; it returns the cancellation failure iff the
context fires with every delivered event an unready deployment, the
stream-closed failure iff the channel closes likewise, and the
type-mismatch failure iff some delivered object is not a deployment and
everything before it is an unready deployment. -/
theorem deploymentHealthy_characterization :
    (∀ d : DeploymentObj, deploymentReady d = true ↔
      (d.availableReplicas = d.specReplicas.getD 1 ∧
       d.readyReplicas = d.specReplicas.getD 1 ∧
       d.unavailableReplicas = 0 ∧
       d.replicas = d.specReplicas.getD 1 ∧
       d.updatedReplicas = d.specReplicas.getD 1)) ∧
    (∀ (evts : List (WatchObj DeploymentObj)) (stop : WatchEnd),
      (deploymentHealthy evts stop = WatchResult.healthy ↔
        ∃ pre d post, evts = pre ++ WatchObj.expected d :: post ∧
          AllUnready deploymentReady pre ∧ deploymentReady d = true) ∧
      (deploymentHealthy evts stop = WatchResult.errCancelled ↔
        stop = WatchEnd.ctxCancelled ∧ AllUnready deploymentReady evts) ∧
      (deploymentHealthy evts stop = WatchResult.errClosed ↔
        stop = WatchEnd.streamClosed ∧ AllUnready deploymentReady evts) ∧
      (deploymentHealthy evts stop = WatchResult.errInvalidType ↔
        ∃ pre post, evts = pre ++ WatchObj.other :: post ∧
          AllUnready deploymentReady pre)) := by
  refine ⟨fun d => ?_, fun evts stop =>
    ⟨watchRun_healthy_iff _ evts stop, watchRun_cancelled_iff _ evts stop,
     watchRun_closed_iff _ evts stop, watchRun_invalidType_iff _ evts stop⟩⟩
  simp only [deploymentReady, Bool.and_eq_true, beq_iff_eq]
  tauto

/-- C6: `MeshnetSpec.Healthy` returns success on the first daemon-set
event with NumberReady equal to DesiredNumberScheduled and
NumberUnavailable zero, a distinct failure on cancellation, a distinct
failure on stream closure, and a type-mismatch failure on a
non-daemon-set object; an event with NumberUnavailable = 1 does not
terminate the watch and a later satisfying event does. -/
theorem meshnetHealthy_characterization :
    (∀ d : DaemonSetObj, daemonSetReady d = true ↔
      (d.numberReady = d.desiredNumberScheduled ∧ d.numberUnavailable = 0)) ∧
    (∀ (evts : List (WatchObj DaemonSetObj)) (stop : WatchEnd),
      (meshnetHealthy evts stop = WatchResult.healthy ↔
        ∃ pre d post, evts = pre ++ WatchObj.expected d :: post ∧
          AllUnready daemonSetReady pre ∧ daemonSetReady d = true) ∧
      (meshnetHealthy evts stop = WatchResult.errCancelled ↔
        stop = WatchEnd.ctxCancelled ∧ AllUnready daemonSetReady evts) ∧
      (meshnetHealthy evts stop = WatchResult.errClosed ↔
        stop = WatchEnd.streamClosed ∧ AllUnready daemonSetReady evts) ∧
      (meshnetHealthy evts stop = WatchResult.errInvalidType ↔
        ∃ pre post, evts = pre ++ WatchObj.other :: post ∧
          AllUnready daemonSetReady pre)) ∧
    (∀ stop : WatchEnd,
      meshnetHealthy
        [WatchObj.expected ⟨1, 1, 1⟩, WatchObj.expected ⟨1, 1, 0⟩] stop =
        WatchResult.healthy) ∧
    meshnetHealthy [WatchObj.expected ⟨1, 1, 1⟩] WatchEnd.streamClosed =
      WatchResult.errClosed := by
  refine ⟨fun d => ?_, ?_, ?_, ?_⟩
  · simp only [daemonSetReady, Bool.and_eq_true, beq_iff_eq]
  · exact fun evts stop =>
      ⟨watchRun_healthy_iff _ evts stop, watchRun_cancelled_iff _ evts stop,
       watchRun_closed_iff _ evts stop, watchRun_invalidType_iff _ evts stop⟩
  · intro stop
    cases stop <;> rfl
  · decide

/-! ### Pre-flight dependency checks

`(*Deployment).checkDependencies` and `(*KindSpec).checkDependencies`
look up each required binary with `exec.LookPath`, add the error
`fmt.Errorf("install dependency %q to deploy", bin)` to an
`errlist.List` for every missing one, and return `errs.Err()`, which is
nil when no error was added and otherwise one aggregated error carrying
every added message.  The binary resolver (`execLookPath`, a package
stub) is a parameter; the aggregated error is embedded as the list of
messages it carries. -/

/-- Message of `fmt.Errorf("install dependency %q to deploy", bin)`. -/
def depErrMsg (bin : String) : String :=
  "install dependency \"" ++ bin ++ "\" to deploy"

/-- Model of `errlist.List.Err()`: nil when nothing was added, otherwise one
error aggregating every added message in order. -/
def errlistErr (msgs : List String) : Option (List String) :=
  if msgs.isEmpty then none else some msgs

/-- Model of `(*Deployment).checkDependencies`: docker and kubectl are required. -/
def checkDependencies (lookPathOk : String → Bool) : Option (List String) :=
  errlistErr ((["docker", "kubectl"].filter fun bin => !lookPathOk bin).map depErrMsg)

/-- The binaries `(*KindSpec).checkDependencies` requires: kind, plus
gcloud when Google Artifact Registries are configured. -/
def kindRequiredBins (registries : List String) : List String :=
  ["kind"] ++ (if registries.isEmpty then [] else ["gcloud"])

/-- Model of `(*KindSpec).checkDependencies`, given the configured registry
list. -/
def kindCheckDependencies (registries : List String)
    (lookPathOk : String → Bool) : Option (List String) :=
  errlistErr (((kindRequiredBins registries).filter fun bin => !lookPathOk bin).map depErrMsg)

/-- C7: the pre-flight dependency check aggregates all missing binaries
into one error instead of failing on the first: it succeeds iff both
docker and kubectl resolve, each missing binary contributes its message
to the single returned error, and with both missing the one error names
both (likewise for the cluster provider's kind/gcloud check). -/
theorem checkDependencies_aggregates (lookPathOk : String → Bool) :
    (checkDependencies lookPathOk = none ↔
      lookPathOk "docker" = true ∧ lookPathOk "kubectl" = true) ∧
    (∀ bin ∈ ["docker", "kubectl"], lookPathOk bin = false →
      ∃ msgs, checkDependencies lookPathOk = some msgs ∧ depErrMsg bin ∈ msgs) ∧
    (lookPathOk "docker" = false → lookPathOk "kubectl" = false →
      checkDependencies lookPathOk =
        some ["install dependency \"docker\" to deploy",
              "install dependency \"kubectl\" to deploy"]) ∧
    (∀ registries : List String, ¬ registries.isEmpty →
      lookPathOk "kind" = false → lookPathOk "gcloud" = false →
      kindCheckDependencies registries lookPathOk =
        some ["install dependency \"kind\" to deploy",
              "install dependency \"gcloud\" to deploy"]) := by
  refine ⟨?_, ?_, ?_, ?_⟩
  · cases h1 : lookPathOk "docker" <;> cases h2 : lookPathOk "kubectl" <;>
      simp [checkDependencies, errlistErr, h1, h2]
  · intro bin hbin hmiss
    simp only [List.mem_cons, List.not_mem_nil, or_false] at hbin
    rcases hbin with rfl | rfl
    · cases h2 : lookPathOk "kubectl" <;>
        simp [checkDependencies, errlistErr, hmiss, h2, depErrMsg]
    · cases h1 : lookPathOk "docker" <;>
        simp [checkDependencies, errlistErr, hmiss, h1, depErrMsg]
  · intro h1 h2
    simp [checkDependencies, errlistErr, h1, h2, depErrMsg]
  · intro registries hreg h1 h2
    simp [kindCheckDependencies, kindRequiredBins, errlistErr, h1, h2,
      depErrMsg, hreg]

/-- Witness for C7: with no binary resolvable, both required binaries
are named in the one aggregated error. -/
theorem checkDependencies_aggregates_witness :
    checkDependencies (fun _ => false) =
      some ["install dependency \"docker\" to deploy",
            "install dependency \"kubectl\" to deploy"] :=
  (checkDependencies_aggregates (fun _ => false)).2.2.1 rfl rfl

/-! ### Orchestrator (`Deployment.Deploy`)

`Deployment.Deploy(ctx, kubecfg)` runs: dependency check, cluster
deploy, kubeconfig build (`clientcmd.BuildConfigFromFlags` then
`kubernetes.NewForConfig`), ingress deploy, ingress health wait, CNI
deploy, CNI health wait, then per configured controller deploy and
health wait; every failing step returns its error at once.  The
components are interface values, so a run is determined by the outcome
of each call; `DeployOutcomes` records those outcomes (`none` =
success) and the embedded `deploymentDeploy` returns the list of
component calls made (the trace) and the result. -/

/-- The component operations `Deployment.Deploy` can invoke, plus the
cluster teardown operation (invoked only by `Deployment.Delete`), so
that the absence of teardown from a deploy trace is expressible. -/
inductive Step
  | clusterDeploy
  | ingressDeploy
  | ingressHealthy
  | cniDeploy
  | cniHealthy
  | controllerDeploy (i : Nat)
  | controllerHealthy (i : Nat)
  | clusterDelete
deriving DecidableEq, Repr

/-- Outcome environment of one `Deployment.Deploy` run: the binary
resolver and the result of each fallible call, with controller `i`
contributing a (deploy, healthy) outcome pair. -/
structure DeployOutcomes where
  lookPathOk : String → Bool
  clusterDeploy : Option String
  buildConfigFromFlags : Option String
  newForConfig : Option String
  ingressDeploy : Option String
  ingressHealthy : Option String
  cniDeploy : Option String
  cniHealthy : Option String
  controllers : List (Option String × Option String)

/-- Errors `Deployment.Deploy` returns: the aggregated dependency
error, an error from building the cluster-API client, or a component
error passed through unchanged. -/
inductive DeployErr
  | deps (msgs : List String)
  | kubecfg (e : String)
  | stage (e : String)
deriving DecidableEq, Repr

/-- The `for _, c := range d.Controllers` loop: deploy controller `i`,
then wait on its health, aborting at the first failure. -/
def controllersRun : List (Option String × Option String) → Nat →
    List Step × Option String
  | [], _ => ([], none)
  | (de, he) :: rest, i =>
    match de with
    | some e => ([Step.controllerDeploy i], some e)
    | none =>
      match he with
      | some e => ([Step.controllerDeploy i, Step.controllerHealthy i], some e)
      | none =>
        let (tr, r) := controllersRun rest (i + 1)
        (Step.controllerDeploy i :: Step.controllerHealthy i :: tr, r)

/-- Embedding of `Deployment.Deploy` over its outcome environment. -/
def deploymentDeploy (o : DeployOutcomes) : List Step × Option DeployErr :=
  match checkDependencies o.lookPathOk with
  | some msgs => ([], some (DeployErr.deps msgs))
  | none =>
    match o.clusterDeploy with
    | some e => ([Step.clusterDeploy], some (DeployErr.stage e))
    | none =>
      match o.buildConfigFromFlags with
      | some e => ([Step.clusterDeploy], some (DeployErr.kubecfg e))
      | none =>
        match o.newForConfig with
        | some e => ([Step.clusterDeploy], some (DeployErr.kubecfg e))
        | none =>
          match o.ingressDeploy with
          | some e =>
            ([Step.clusterDeploy, Step.ingressDeploy], some (DeployErr.stage e))
          | none =>
            match o.ingressHealthy with
            | some e =>
              ([Step.clusterDeploy, Step.ingressDeploy, Step.ingressHealthy],
               some (DeployErr.stage e))
            | none =>
              match o.cniDeploy with
              | some e =>
                ([Step.clusterDeploy, Step.ingressDeploy, Step.ingressHealthy,
                  Step.cniDeploy], some (DeployErr.stage e))
              | none =>
                match o.cniHealthy with
                | some e =>
                  ([Step.clusterDeploy, Step.ingressDeploy, Step.ingressHealthy,
                    Step.cniDeploy, Step.cniHealthy], some (DeployErr.stage e))
                | none =>
                  let (tr, r) := controllersRun o.controllers 0
                  ([Step.clusterDeploy, Step.ingressDeploy, Step.ingressHealthy,
                    Step.cniDeploy, Step.cniHealthy] ++ tr,
                   r.map DeployErr.stage)

/-- The stage order the spec declares for controllers `i, i+1, ...`. -/
def controllerStageOrder : Nat → Nat → List Step
  | _, 0 => []
  | i, Nat.succ n =>
    Step.controllerDeploy i :: Step.controllerHealthy i ::
      controllerStageOrder (i + 1) n

/-- The full stage order the spec declares for `n` controllers:
cluster deploy, ingress deploy, ingress health, CNI deploy, CNI health,
then each controller's deploy and health in configured order. -/
def fullStageOrder (n : Nat) : List Step :=
  [Step.clusterDeploy, Step.ingressDeploy, Step.ingressHealthy,
   Step.cniDeploy, Step.cniHealthy] ++ controllerStageOrder 0 n

/-- The configured outcome of each stage, in stage order. -/
def stageOutcomes (o : DeployOutcomes) : List (Option String) :=
  [o.clusterDeploy, o.ingressDeploy, o.ingressHealthy, o.cniDeploy, o.cniHealthy]
    ++ o.controllers.flatMap (fun p => [p.1, p.2])

/-- Modelled from the spec's words (section 4.1): execute the declared
stages in order; any failure at any step aborts immediately and returns
that error; later stages are never attempted. -/
def specStagedRun : List (Step × Option String) → List Step × Option String
  | [] => ([], none)
  | (s, some e) :: _ => ([s], some e)
  | (s, none) :: rest =>
    let (tr, r) := specStagedRun rest
    (s :: tr, r)

theorem specStagedRun_trace (l : List (Step × Option String)) :
    (specStagedRun l).1 <+: l.map Prod.fst := by
  induction l with
  | nil => simp [specStagedRun]
  | cons p rest ih =>
    obtain ⟨s, r⟩ := p
    cases r with
    | some e =>
      exact ⟨rest.map Prod.fst, by simp [specStagedRun]⟩
    | none =>
      simp only [specStagedRun, List.map_cons]
      exact List.cons_prefix_cons.2 ⟨rfl, ih⟩

theorem controllersRun_eq_specStagedRun
    (ctrls : List (Option String × Option String)) (i : Nat) :
    controllersRun ctrls i =
      specStagedRun ((controllerStageOrder i ctrls.length).zip
        (ctrls.flatMap (fun p => [p.1, p.2]))) := by
  induction ctrls generalizing i with
  | nil => rfl
  | cons p rest ih =>
    obtain ⟨de, he⟩ := p
    cases de with
    | some e =>
      simp [controllersRun, controllerStageOrder, specStagedRun]
    | none =>
      cases he with
      | some e =>
        simp [controllersRun, controllerStageOrder, specStagedRun]
      | none =>
        have hzip : (controllerStageOrder i
              (((none, none) : Option String × Option String) :: rest).length).zip
            ((((none, none) : Option String × Option String) :: rest).flatMap
              fun p => [p.1, p.2]) =
            (Step.controllerDeploy i, (none : Option String)) ::
            (Step.controllerHealthy i, (none : Option String)) ::
              ((controllerStageOrder (i + 1) rest.length).zip
                (rest.flatMap fun p => [p.1, p.2])) := by
          simp [controllerStageOrder]
        rw [hzip]
        simp [controllersRun, specStagedRun, ih (i + 1)]

theorem flatMapPair_length {α : Type} (l : List (α × α)) :
    (l.flatMap fun p => [p.1, p.2]).length = 2 * l.length := by
  induction l with
  | nil => rfl
  | cons p rest ih =>
    simp only [List.flatMap_cons, List.length_append, List.length_cons, ih]
    simp
    omega

theorem controllerStageOrder_length (i n : Nat) :
    (controllerStageOrder i n).length = 2 * n := by
  induction n generalizing i with
  | zero => rfl
  | succ n ih => simp [controllerStageOrder, ih]; ring

theorem clusterDelete_not_mem_controllerStageOrder (i n : Nat) :
    Step.clusterDelete ∉ controllerStageOrder i n := by
  induction n generalizing i with
  | zero => simp [controllerStageOrder]
  | succ n ih =>
    simp only [controllerStageOrder, List.mem_cons]
    push_neg
    exact ⟨by simp, by simp, ih (i + 1)⟩

theorem clusterDelete_not_mem_fullStageOrder (n : Nat) :
    Step.clusterDelete ∉ fullStageOrder n := by
  simp only [fullStageOrder, List.mem_append, List.mem_cons]
  push_neg
  refine ⟨?_, clusterDelete_not_mem_controllerStageOrder 0 n⟩
  simp

/-- C2: `Deployment.Deploy` invokes its component calls in the declared
stage order — the trace is always a prefix of that order — no stage is
ever torn down (the teardown operation never appears in a deploy
trace), and whenever the dependency check and the two kubeconfig-client
construction steps succeed, the run is exactly the spec's staged
execution: stages run in order and the first failing stage's error is
returned immediately, later stages unattempted. -/
theorem deploymentDeploy_staged (o : DeployOutcomes) :
    ((deploymentDeploy o).1 <+: fullStageOrder o.controllers.length) ∧
    (Step.clusterDelete ∉ (deploymentDeploy o).1) ∧
    (checkDependencies o.lookPathOk = none →
      o.buildConfigFromFlags = none → o.newForConfig = none →
      deploymentDeploy o =
        (((specStagedRun ((fullStageOrder o.controllers.length).zip
            (stageOutcomes o)))).1,
         (specStagedRun ((fullStageOrder o.controllers.length).zip
            (stageOutcomes o))).2.map DeployErr.stage)) := by
  have hlen : (fullStageOrder o.controllers.length).length =
      (stageOutcomes o).length := by
    simp only [fullStageOrder, stageOutcomes, List.length_append,
      List.length_cons, List.length_nil, controllerStageOrder_length,
      flatMapPair_length]
  have hzipmap : ((fullStageOrder o.controllers.length).zip
      (stageOutcomes o)).map Prod.fst = fullStageOrder o.controllers.length :=
    List.map_fst_zip _ _ (le_of_eq hlen)
  have hmain : checkDependencies o.lookPathOk = none →
      o.buildConfigFromFlags = none → o.newForConfig = none →
      deploymentDeploy o =
        (((specStagedRun ((fullStageOrder o.controllers.length).zip
            (stageOutcomes o)))).1,
         (specStagedRun ((fullStageOrder o.controllers.length).zip
            (stageOutcomes o))).2.map DeployErr.stage) := by
    intro hdeps hcfg1 hcfg2
    rcases h1 : o.clusterDeploy with _ | e1
    all_goals rcases h2 : o.ingressDeploy with _ | e2
    all_goals rcases h3 : o.ingressHealthy with _ | e3
    all_goals rcases h4 : o.cniDeploy with _ | e4
    all_goals rcases h5 : o.cniHealthy with _ | e5
    all_goals
      simp [deploymentDeploy, hdeps, hcfg1, hcfg2, h1, h2, h3, h4, h5,
        fullStageOrder, stageOutcomes, specStagedRun,
        controllersRun_eq_specStagedRun]
  refine ⟨?_, ?_, hmain⟩
  · rcases hdeps : checkDependencies o.lookPathOk with _ | msgs
    · rcases hcfg1 : o.buildConfigFromFlags with _ | e
      · rcases hcfg2 : o.newForConfig with _ | e
        · rw [hmain hdeps hcfg1 hcfg2]
          have h := specStagedRun_trace
            ((fullStageOrder o.controllers.length).zip (stageOutcomes o))
          rw [hzipmap] at h
          exact h
        · rcases h1 : o.clusterDeploy with _ | e1 <;>
            simp [deploymentDeploy, hdeps, hcfg1, hcfg2, h1, fullStageOrder]
      · rcases h1 : o.clusterDeploy with _ | e1 <;>
          simp [deploymentDeploy, hdeps, hcfg1, h1, fullStageOrder]
    · simp [deploymentDeploy, hdeps]
  · rcases hdeps : checkDependencies o.lookPathOk with _ | msgs
    · rcases hcfg1 : o.buildConfigFromFlags with _ | e
      · rcases hcfg2 : o.newForConfig with _ | e
        · rw [hmain hdeps hcfg1 hcfg2]
          have h := specStagedRun_trace
            ((fullStageOrder o.controllers.length).zip (stageOutcomes o))
          rw [hzipmap] at h
          intro hmem
          exact clusterDelete_not_mem_fullStageOrder o.controllers.length
            (h.subset hmem)
        · rcases h1 : o.clusterDeploy with _ | e1 <;>
            simp [deploymentDeploy, hdeps, hcfg1, hcfg2, h1]
      · rcases h1 : o.clusterDeploy with _ | e1 <;>
          simp [deploymentDeploy, hdeps, hcfg1, h1]
    · simp [deploymentDeploy, hdeps]

/-- A sample outcome environment: every binary resolves and every call
succeeds, with one configured controller. -/
def sampleDeployOutcomes : DeployOutcomes :=
  { lookPathOk := fun _ => true
    clusterDeploy := none
    buildConfigFromFlags := none
    newForConfig := none
    ingressDeploy := none
    ingressHealthy := none
    cniDeploy := none
    cniHealthy := none
    controllers := [(none, none)] }

/-- Witness for C2: on the all-success environment the run equals the
spec's staged execution (and hence succeeds after visiting every stage
in order). -/
theorem deploymentDeploy_staged_witness :
    deploymentDeploy sampleDeployOutcomes =
      (((specStagedRun ((fullStageOrder 1).zip
          (stageOutcomes sampleDeployOutcomes)))).1,
       (specStagedRun ((fullStageOrder 1).zip
          (stageOutcomes sampleDeployOutcomes))).2.map DeployErr.stage) :=
  (deploymentDeploy_staged sampleDeployOutcomes).2.2 rfl rfl rfl

/-! ### MetalLB ingress deploy (`MetalLBSpec.Deploy`)

The deploy lazily builds a docker network client, applies the namespace
manifest, ensures the "memberlist" secret exists (Get, then Create only
when Get fails), applies the pod manifests, and ensures the "config"
config-map exists (Get, then on failure: docker NetworkList, select the
network named "kind" — the Go zero value when absent — select its first
IPv4 subnet, build `makeConfig`, Create).  The cluster state records
which of the two objects exist; a well-behaved API's Get succeeds
exactly on existing objects.  The 16 random secret bytes and the YAML
serialization of the config are not modelled: no claim depends on the
created objects' payloads, only on which calls happen. -/

/-- An external command: binary plus argument vector. -/
abbrev Cmd := String × List String

/-- Result of `net.ParseCIDR` on one IPAM subnet string, combined with
the `To4() != nil` test on the parsed base address: malformed, an IPv4
subnet with the given base-address bytes, or a non-IPv4 subnet. -/
inductive SubnetEntry
  | malformed
  | v4 (ip : List Nat)
  | v6
deriving DecidableEq, Repr

/-- The projection of `dtypes.NetworkResource` the deploy reads. -/
structure NetworkResource where
  name : String
  ipamConfig : List SubnetEntry
deriving DecidableEq, Repr

/-- The Go zero value of `dtypes.NetworkResource`: empty name, no IPAM
entries.  `MetalLBSpec.Deploy` is left with it when no listed network
is named "kind". -/
def zeroNetwork : NetworkResource := { name := "", ipamConfig := [] }

/-- The `for _, ipRange := range network.IPAM.Config` loop: parse each
subnet in order, returning the parse error of a malformed entry, else
the first IPv4 base address, else nothing. -/
def findV4Subnet : List SubnetEntry → Except String (Option (List Nat))
  | [] => Except.ok none
  | SubnetEntry.malformed :: _ => Except.error "invalid CIDR address"
  | SubnetEntry.v4 ip :: _ => Except.ok (some ip)
  | SubnetEntry.v6 :: rest => findV4Subnet rest

/-- Cluster-side state: which of the two objects `MetalLBSpec.Deploy`
manages exist in namespace metallb-system. -/
structure MLBState where
  secretExists : Bool
  configMapExists : Bool
deriving DecidableEq, Repr

/-- The calls `MetalLBSpec.Deploy` performs, in trace order. -/
inductive MLBCall
  | exec (c : Cmd)
  | secretGet
  | secretCreate
  | configMapGet
  | configMapCreate
  | networkList
deriving DecidableEq, Repr

/-- Failure oracle for one `MetalLBSpec.Deploy` run. -/
structure MLBOracle where
  dClientPresent : Bool
  dClientNewErr : Option String
  execErr : Cmd → Option String
  secretCreateErr : Option String
  networkListErr : Option String
  networks : List NetworkResource
  configMapCreateErr : Option String

/-- The configuration fields of `MetalLBSpec` the deploy reads. -/
structure MetalLBSpec where
  ipCount : Int
  manifestDir : String
deriving DecidableEq, Repr

/-- Command `kubectl apply -f <dir>/namespace.yaml`. -/
def mlbNamespaceCmd (m : MetalLBSpec) : Cmd :=
  ("kubectl", ["apply", "-f", m.manifestDir ++ "/namespace.yaml"])

/-- Command `kubectl apply -f <dir>/metallb.yaml`. -/
def mlbPodsCmd (m : MetalLBSpec) : Cmd :=
  ("kubectl", ["apply", "-f", m.manifestDir ++ "/metallb.yaml"])

/-- The secret block of `MetalLBSpec.Deploy`: Get "memberlist", and
when the Get fails (the secret is absent) generate the key material and
Create it. -/
def metalLBSecretPhase (o : MLBOracle) (st : MLBState) :
    MLBState × List MLBCall × Option String :=
  if st.secretExists then
    (st, [MLBCall.secretGet], none)
  else
    match o.secretCreateErr with
    | some e => (st, [MLBCall.secretGet, MLBCall.secretCreate], some e)
    | none =>
      ({ st with secretExists := true },
       [MLBCall.secretGet, MLBCall.secretCreate], none)

/-- The config-map block of `MetalLBSpec.Deploy`: Get "config", and
when the Get fails list the docker networks, pick the one named "kind"
(zero value when absent), pick its first IPv4 subnet, build
`makeConfig` from it and Create the config-map; fail with the discovery
error when no IPv4 subnet was found. -/
def metalLBConfigMapPhase (m : MetalLBSpec) (o : MLBOracle) (st : MLBState) :
    MLBState × List MLBCall × Option String :=
  if st.configMapExists then
    (st, [MLBCall.configMapGet], none)
  else
    match o.networkListErr with
    | some e => (st, [MLBCall.configMapGet, MLBCall.networkList], some e)
    | none =>
      let network := (o.networks.find? (fun v => v.name == "kind")).getD zeroNetwork
      match findV4Subnet network.ipamConfig with
      | Except.error e =>
        (st, [MLBCall.configMapGet, MLBCall.networkList], some e)
      | Except.ok none =>
        (st, [MLBCall.configMapGet, MLBCall.networkList],
         some "failed to find kind ipv4 docker net")
      | Except.ok (some ip) =>
        let _cfg := makeConfig ⟨ip⟩ m.ipCount
        match o.configMapCreateErr with
        | some e =>
          (st, [MLBCall.configMapGet, MLBCall.networkList,
                MLBCall.configMapCreate], some e)
        | none =>
          ({ st with configMapExists := true },
           [MLBCall.configMapGet, MLBCall.networkList,
            MLBCall.configMapCreate], none)

/-- Embedding of `MetalLBSpec.Deploy` over its oracle and cluster state:
returns the updated state, the trace of calls, and the result. -/
def metalLBDeploy (m : MetalLBSpec) (o : MLBOracle) (st : MLBState) :
    MLBState × List MLBCall × Option String :=
  match (if o.dClientPresent then none else o.dClientNewErr) with
  | some e => (st, [], some e)
  | none =>
    match o.execErr (mlbNamespaceCmd m) with
    | some e => (st, [MLBCall.exec (mlbNamespaceCmd m)], some e)
    | none =>
      match metalLBSecretPhase o st with
      | (st1, tr1, some e) =>
        (st1, MLBCall.exec (mlbNamespaceCmd m) :: tr1, some e)
      | (st1, tr1, none) =>
        match o.execErr (mlbPodsCmd m) with
        | some e =>
          (st1, MLBCall.exec (mlbNamespaceCmd m) :: tr1 ++
            [MLBCall.exec (mlbPodsCmd m)], some e)
        | none =>
          match metalLBConfigMapPhase m o st1 with
          | (st2, tr2, r) =>
            (st2, MLBCall.exec (mlbNamespaceCmd m) :: tr1 ++
              MLBCall.exec (mlbPodsCmd m) :: tr2, r)

theorem metalLBSecretPhase_skip (o : MLBOracle) (st : MLBState)
    (h : st.secretExists = true) :
    metalLBSecretPhase o st = (st, [MLBCall.secretGet], none) := by
  simp [metalLBSecretPhase, h]

theorem metalLBSecretPhase_success (o : MLBOracle) (st : MLBState)
    (h : (metalLBSecretPhase o st).2.2 = none) :
    (metalLBSecretPhase o st).1.secretExists = true ∧
      (metalLBSecretPhase o st).1.configMapExists = st.configMapExists := by
  by_cases hs : st.secretExists
  · simp [metalLBSecretPhase, hs]
  · rcases hc : o.secretCreateErr with _ | e <;>
      simp [metalLBSecretPhase, hs, hc] at h ⊢

theorem metalLBConfigMapPhase_skip (m : MetalLBSpec) (o : MLBOracle)
    (st : MLBState) (h : st.configMapExists = true) :
    metalLBConfigMapPhase m o st = (st, [MLBCall.configMapGet], none) := by
  simp [metalLBConfigMapPhase, h]

theorem metalLBConfigMapPhase_success (m : MetalLBSpec) (o : MLBOracle)
    (st : MLBState) (h : (metalLBConfigMapPhase m o st).2.2 = none) :
    (metalLBConfigMapPhase m o st).1.configMapExists = true ∧
      (metalLBConfigMapPhase m o st).1.secretExists = st.secretExists := by
  by_cases hc : st.configMapExists
  · simp [metalLBConfigMapPhase, hc]
  · rcases hnl : o.networkListErr with _ | e
    · rcases hf : findV4Subnet
          (((o.networks.find? (fun v => v.name == "kind")).getD
            zeroNetwork).ipamConfig) with e | ip
      · simp [metalLBConfigMapPhase, hc, hnl, hf] at h
      · rcases ip with _ | ip
        · simp [metalLBConfigMapPhase, hc, hnl, hf] at h
        · rcases hcc : o.configMapCreateErr with _ | e <;>
            simp [metalLBConfigMapPhase, hc, hnl, hf, hcc] at h ⊢
    · simp [metalLBConfigMapPhase, hc, hnl] at h

/-- When both managed objects already exist, a `MetalLBSpec.Deploy` run
performs no creation call, whatever the other outcomes. -/
theorem metalLBDeploy_no_creates (m : MetalLBSpec) (o : MLBOracle)
    (st : MLBState) (hs : st.secretExists = true)
    (hc : st.configMapExists = true) :
    MLBCall.secretCreate ∉ (metalLBDeploy m o st).2.1 ∧
      MLBCall.configMapCreate ∉ (metalLBDeploy m o st).2.1 := by
  rcases hcl : (if o.dClientPresent then none else o.dClientNewErr :
      Option String) with _ | e
  · rcases hns : o.execErr (mlbNamespaceCmd m) with _ | e
    · rcases hpods : o.execErr (mlbPodsCmd m) with _ | e
      · simp [metalLBDeploy, hcl, hns, hpods, metalLBSecretPhase_skip o st hs,
          metalLBConfigMapPhase_skip m o st hc]
      · simp [metalLBDeploy, hcl, hns, hpods, metalLBSecretPhase_skip o st hs]
    · simp [metalLBDeploy, hcl, hns]
  · simp [metalLBDeploy, hcl]

theorem metalLBDeploy_success_state (m : MetalLBSpec) (o : MLBOracle)
    (st : MLBState) (h : (metalLBDeploy m o st).2.2 = none) :
    (metalLBDeploy m o st).1.secretExists = true ∧
      (metalLBDeploy m o st).1.configMapExists = true := by
  rcases hcl : (if o.dClientPresent then none else o.dClientNewErr :
      Option String) with _ | e
  · rcases hns : o.execErr (mlbNamespaceCmd m) with _ | e
    · rcases hsp : metalLBSecretPhase o st with ⟨st1, tr1, r1⟩
      rcases r1 with _ | e
      · have h1 := metalLBSecretPhase_success o st (by rw [hsp])
        rw [hsp] at h1
        rcases hpods : o.execErr (mlbPodsCmd m) with _ | e
        · rcases hcp : metalLBConfigMapPhase m o st1 with ⟨st2, tr2, r2⟩
          have h2 := metalLBConfigMapPhase_success m o st1
          rw [hcp] at h2
          simp only [metalLBDeploy, hcl, hns, hsp, hpods, hcp] at h ⊢
          rcases r2 with _ | e
          · obtain ⟨h2a, h2b⟩ := h2 rfl
            exact ⟨h2b.trans h1.1, h2a⟩
          · simp at h
        · simp [metalLBDeploy, hcl, hns, hsp, hpods] at h
      · simp [metalLBDeploy, hcl, hns, hsp] at h
    · simp [metalLBDeploy, hcl, hns] at h
  · simp [metalLBDeploy, hcl] at h

/-- C8: when the "memberlist" secret and the "config" config-map both
exist, `MetalLBSpec.Deploy` performs zero secret-creation and zero
config-map-creation calls; consequently after any successful Deploy a
second Deploy performs no creation call and never overwrites either
object. -/
theorem metalLBDeploy_idempotent (m : MetalLBSpec) (o : MLBOracle)
    (st : MLBState) :
    (st.secretExists = true → st.configMapExists = true →
      MLBCall.secretCreate ∉ (metalLBDeploy m o st).2.1 ∧
        MLBCall.configMapCreate ∉ (metalLBDeploy m o st).2.1) ∧
    ((metalLBDeploy m o st).2.2 = none →
      ∀ (m' : MetalLBSpec) (o' : MLBOracle),
        MLBCall.secretCreate ∉ (metalLBDeploy m' o' (metalLBDeploy m o st).1).2.1 ∧
          MLBCall.configMapCreate ∉
            (metalLBDeploy m' o' (metalLBDeploy m o st).1).2.1) := by
  refine ⟨metalLBDeploy_no_creates m o st, fun hres m' o' => ?_⟩
  obtain ⟨h1, h2⟩ := metalLBDeploy_success_state m o st hres
  exact metalLBDeploy_no_creates m' o' _ h1 h2

/-- Witness for C8: on a state where both objects exist, a run with the
always-succeeding oracle performs no creation call. -/
theorem metalLBDeploy_idempotent_witness :
    MLBCall.secretCreate ∉
      (metalLBDeploy ⟨10, "m"⟩
        ⟨true, none, fun _ => none, none, none, [], none⟩ ⟨true, true⟩).2.1 ∧
      MLBCall.configMapCreate ∉
        (metalLBDeploy ⟨10, "m"⟩
          ⟨true, none, fun _ => none, none, none, [], none⟩ ⟨true, true⟩).2.1 :=
  (metalLBDeploy_idempotent ⟨10, "m"⟩
    ⟨true, none, fun _ => none, none, none, [], none⟩ ⟨true, true⟩).1 rfl rfl

theorem findV4Subnet_all_v6 (l : List SubnetEntry)
    (h : ∀ s ∈ l, s = SubnetEntry.v6) : findV4Subnet l = Except.ok none := by
  induction l with
  | nil => rfl
  | cons s rest ih =>
    have hs := h s (List.mem_cons_self _ _)
    subst hs
    exact ih fun s hs => h s (List.mem_cons_of_mem _ hs)

/-- C10: if no listed network is named "kind", or the matching network
has only non-IPv4 subnet entries, `MetalLBSpec.Deploy` (having got past
namespace, secret and pod steps, with the config-map absent) returns
the network-discovery error "failed to find kind ipv4 docker net" and
performs no config-map creation; the absent-network case reaches the
same branch through the zero-value network's empty subnet list. -/
theorem metalLBDeploy_discovery_error (m : MetalLBSpec) (o : MLBOracle)
    (st : MLBState)
    (hcl : (if o.dClientPresent then none else o.dClientNewErr :
      Option String) = none)
    (hns : o.execErr (mlbNamespaceCmd m) = none)
    (hsec : st.secretExists = true)
    (hpods : o.execErr (mlbPodsCmd m) = none)
    (hcm : st.configMapExists = false)
    (hnl : o.networkListErr = none)
    (hnet : (∀ v ∈ o.networks, ¬ v.name = "kind") ∨
      (∃ v, o.networks.find? (fun v => v.name == "kind") = some v ∧
        ∀ s ∈ v.ipamConfig, s = SubnetEntry.v6)) :
    (metalLBDeploy m o st).2.2 = some "failed to find kind ipv4 docker net" ∧
      MLBCall.configMapCreate ∉ (metalLBDeploy m o st).2.1 := by
  have hfind : findV4Subnet
      (((o.networks.find? (fun v => v.name == "kind")).getD
        zeroNetwork).ipamConfig) = Except.ok none := by
    rcases hnet with hnone | ⟨v, hv, hall⟩
    · have : o.networks.find? (fun v => v.name == "kind") = none := by
        rw [List.find?_eq_none]
        intro v hv
        simpa using hnone v hv
      rw [this]
      rfl
    · rw [hv]
      exact findV4Subnet_all_v6 _ hall
  have hcp : metalLBConfigMapPhase m o st =
      (st, [MLBCall.configMapGet, MLBCall.networkList],
       some "failed to find kind ipv4 docker net") := by
    simp [metalLBConfigMapPhase, hcm, hnl, hfind]
  simp [metalLBDeploy, hcl, hns, hpods, metalLBSecretPhase_skip o st hsec, hcp]

/-- Witness for C10: a network list holding only the default bridge
network (no "kind" network) yields the discovery error and no
config-map creation. -/
theorem metalLBDeploy_discovery_error_witness :
    (metalLBDeploy ⟨10, "m"⟩
        ⟨true, none, fun _ => none, none, none,
          [⟨"bridge", [SubnetEntry.v4 [172, 17, 0, 0]]⟩], none⟩
        ⟨true, false⟩).2.2 = some "failed to find kind ipv4 docker net" ∧
      MLBCall.configMapCreate ∉
        (metalLBDeploy ⟨10, "m"⟩
          ⟨true, none, fun _ => none, none, none,
            [⟨"bridge", [SubnetEntry.v4 [172, 17, 0, 0]]⟩], none⟩
          ⟨true, false⟩).2.1 :=
  metalLBDeploy_discovery_error _ _ _ rfl rfl rfl rfl rfl rfl
    (Or.inl (by decide))

/-! ### Kind cluster provider (`KindSpec.Deploy` and
`setupGoogleArtifactRegistryAccess`)

External commands run through the package-wide `execer`, whose stdout
can be pointed at an in-memory buffer (`execer.SetStdout(&buf)`) and
back at the default `log.StandardLogger().Out`; the process also owns
the `DOCKER_CONFIG` environment variable, temporarily overridden during
credential injection.  `ExecSt` carries that mutable process state.
The oracle supplies the outcome of each external command and of the
filesystem steps, plus the text the two captured commands write. -/

/-- Where the execer's stdout points: the default logger output, or one
of the two local capture buffers of
`setupGoogleArtifactRegistryAccess`. -/
inductive Sink
  | logOut
  | tokenBuf
  | nodesBuf
deriving DecidableEq, Repr

/-- Process-wide state the cluster provider mutates: the execer's
stdout sink and the `DOCKER_CONFIG` environment variable. -/
structure ExecSt where
  stdout : Sink
  dockerConfigEnv : String
deriving DecidableEq, Repr

/-- The fields of `KindSpec` (deploy.go). -/
structure KindSpec where
  name : String
  recycle : Bool
  version : String
  image : String
  retain : Bool
  wait : Nat
  kubecfg : String
  googleArtifactRegistries : List String
  containerImages : List (String × String)
  kindConfigFile : String
  additionalManifests : List String
deriving DecidableEq, Repr

/-- Oracle for one cluster-provider run: binary resolution, the outcome
of every external command, the outcomes of the temp-dir, env-var and
credential-file steps, and the text captured from the two
buffer-redirected commands.  (`containerImages` is a Go map; it is
embedded as an ordered association list, fixing one iteration order.) -/
structure KindOracle where
  lookPathOk : String → Bool
  execErr : Cmd → Option String
  mkdirTempErr : Option String
  tempDir : String
  setenvErr : Option String
  writeConfigErr : Option String
  gcloudTokenOut : String
  kindNodesOut : String

/-- Command `kubectl cluster-info --context kind-<name>`, the recycle probe. -/
def clusterInfoCmd (name : String) : Cmd :=
  ("kubectl", ["cluster-info", "--context", "kind-" ++ name])

/-- The argument vector of `kind create cluster`, assembled from the
optional spec fields in source order.  (`k.Wait.String()` is rendered
as the decimal duration value; no claim depends on its exact form.) -/
def kindCreateArgs (k : KindSpec) : List String :=
  ["create", "cluster"]
    ++ (if k.name == "" then [] else ["--name", k.name])
    ++ (if k.image == "" then [] else ["--image", k.image])
    ++ (if k.retain then ["--retain"] else [])
    ++ (if k.wait == 0 then [] else ["--wait", toString k.wait])
    ++ (if k.kubecfg == "" then [] else ["--kubeconfig", k.kubecfg])
    ++ (if k.kindConfigFile == "" then [] else ["--config", k.kindConfigFile])

/-- Command `gcloud auth print-access-token`, captured into the token buffer. -/
def gcloudTokenCmd : Cmd := ("gcloud", ["auth", "print-access-token"])

/-- Command `docker login -u oauth2accesstoken -p <token> https://<registry>`. -/
def dockerLoginCmd (token registry : String) : Cmd :=
  ("docker",
   ["login", "-u", "oauth2accesstoken", "-p", token, "https://" ++ registry])

/-- Command `kind get nodes [--name <name>]`, captured into the nodes buffer. -/
def kindGetNodesCmd (k : KindSpec) : Cmd :=
  ("kind", ["get", "nodes"] ++ (if k.name == "" then [] else ["--name", k.name]))

/-- Command `docker cp <tempDir>/config.json <node>:/var/lib/kubelet/config.json`. -/
def dockerCpCmd (tempDir node : String) : Cmd :=
  ("docker",
   ["cp", tempDir ++ "/config.json", node ++ ":/var/lib/kubelet/config.json"])

/-- Command `docker exec <node> systemctl restart kubelet.service`. -/
def restartKubeletCmd (node : String) : Cmd :=
  ("docker", ["exec", node, "systemctl", "restart", "kubelet.service"])

/-- Model of `strings.TrimSuffix(node, "\n")`. -/
def trimNewlineSuffix (s : String) : String :=
  if s.endsWith "\n" then s.dropRight 1 else s

/-- The node names: `strings.Split(nodes.String(), " ")`, each with a
trailing newline trimmed. -/
def garNodes (out : String) : List String :=
  (out.splitOn " ").map trimNewlineSuffix

/-- Run external commands in order, aborting at the first failure;
returns the commands actually run and the first error. -/
def execSeq (execErr : Cmd → Option String) : List Cmd → List Cmd × Option String
  | [] => ([], none)
  | c :: rest =>
    match execErr c with
    | some e => ([c], some e)
    | none =>
      let (tr, r) := execSeq execErr rest
      (c :: tr, r)

/-- Embedding of `setupGoogleArtifactRegistryAccess` (deploy.go): make a temp docker
config dir, override `DOCKER_CONFIG` to it (restored by a deferred
Setenv on every later return), write the registry config file, capture
a gcloud access token into the token buffer (redirecting stdout around
that one call), log in to each registry with it, capture the node list
into the nodes buffer (again redirecting stdout around one call), and
copy the config onto each node and restart its kubelet. -/
def setupGoogleArtifactRegistryAccess (k : KindSpec) (o : KindOracle)
    (st : ExecSt) : ExecSt × List Cmd × Option String :=
  match o.mkdirTempErr with
  | some e => (st, [], some e)
  | none =>
    let originalConfig := st.dockerConfigEnv
    let body : ExecSt × List Cmd × Option String :=
      match o.setenvErr with
      | some e => (st, [], some e)
      | none =>
        let st1 : ExecSt := { st with dockerConfigEnv := o.tempDir }
        match o.writeConfigErr with
        | some e => (st1, [], some e)
        | none =>
          let st2 : ExecSt := { st1 with stdout := Sink.tokenBuf }
          match o.execErr gcloudTokenCmd with
          | some e => (st2, [gcloudTokenCmd], some e)
          | none =>
            let st3 : ExecSt := { st2 with stdout := Sink.logOut }
            match execSeq o.execErr
                (k.googleArtifactRegistries.map
                  (dockerLoginCmd o.gcloudTokenOut)) with
            | (tr, some e) => (st3, gcloudTokenCmd :: tr, some e)
            | (tr, none) =>
              let st4 : ExecSt := { st3 with stdout := Sink.nodesBuf }
              match o.execErr (kindGetNodesCmd k) with
              | some e =>
                (st4, gcloudTokenCmd :: tr ++ [kindGetNodesCmd k], some e)
              | none =>
                let st5 : ExecSt := { st4 with stdout := Sink.logOut }
                match execSeq o.execErr
                    ((garNodes o.kindNodesOut).flatMap fun node =>
                      [dockerCpCmd o.tempDir node, restartKubeletCmd node]) with
                | (tr2, r) =>
                  (st5, gcloudTokenCmd :: tr ++ kindGetNodesCmd k :: tr2, r)
    ({ body.1 with dockerConfigEnv := originalConfig }, body.2.1, body.2.2)

/-- Errors `KindSpec.Deploy` returns, by originating step (the wrapped
underlying message is kept verbatim). -/
inductive KindErr
  | deps (msgs : List String)
  | create (e : String)
  | manifest (e : String)
  | gar (e : String)
  | load (e : String)
deriving DecidableEq, Repr

/-- The commands of `loadContainerImages`: per (source, destination)
pair, `docker pull`, `docker tag`, `kind load docker-image
[--name <name>]`. -/
def loadImageCmds (k : KindSpec) : List Cmd :=
  k.containerImages.flatMap fun sd =>
    [("docker", ["pull", sd.1]),
     ("docker", ["tag", sd.1, sd.2]),
     ("kind", ["load", "docker-image", sd.2]
        ++ (if k.name == "" then [] else ["--name", k.name]))]

/-- Embedding of `KindSpec.Deploy` over its oracle and the process state:
dependency check; when recycling, a cluster-info probe whose success
returns at once; `kind create cluster`; each additional manifest; then
registry credential injection and container image preloading when
configured. -/
def kindDeploy (k : KindSpec) (o : KindOracle) (st : ExecSt) :
    ExecSt × List Cmd × Option KindErr :=
  match kindCheckDependencies k.googleArtifactRegistries o.lookPathOk with
  | some msgs => (st, [], some (KindErr.deps msgs))
  | none =>
    let probe :=
      if k.recycle then
        match o.execErr (clusterInfoCmd k.name) with
        | none => ([clusterInfoCmd k.name], true)
        | some _ => ([clusterInfoCmd k.name], false)
      else (([] : List Cmd), false)
    if probe.2 then (st, probe.1, none)
    else
      match o.execErr ("kind", kindCreateArgs k) with
      | some e =>
        (st, probe.1 ++ [("kind", kindCreateArgs k)], some (KindErr.create e))
      | none =>
        match execSeq o.execErr
            (k.additionalManifests.map fun s =>
              ("kubectl", ["apply", "-f", s])) with
        | (tr1, some e) =>
          (st, probe.1 ++ ("kind", kindCreateArgs k) :: tr1,
           some (KindErr.manifest e))
        | (tr1, none) =>
          let gar :=
            if k.googleArtifactRegistries.isEmpty then
              (st, ([] : List Cmd), (none : Option String))
            else setupGoogleArtifactRegistryAccess k o st
          match gar.2.2 with
          | some e =>
            (gar.1, probe.1 ++ ("kind", kindCreateArgs k) :: tr1 ++ gar.2.1,
             some (KindErr.gar e))
          | none =>
            let load :=
              if k.containerImages.isEmpty then
                (([] : List Cmd), (none : Option String))
              else execSeq o.execErr (loadImageCmds k)
            (gar.1,
             probe.1 ++ ("kind", kindCreateArgs k) :: tr1 ++ gar.2.1 ++ load.1,
             load.2.map KindErr.load)

/-- C9: with the recycle flag set, when the read-only cluster-info
probe succeeds (and the dependency check passed, so the probe is
reached), `KindSpec.Deploy` returns success immediately: the trace is
exactly the probe, so `kind create cluster` is never invoked. -/
theorem kindDeploy_recycle_skips_creation (k : KindSpec) (o : KindOracle)
    (st : ExecSt)
    (hdeps : kindCheckDependencies k.googleArtifactRegistries o.lookPathOk = none)
    (hrec : k.recycle = true)
    (hprobe : o.execErr (clusterInfoCmd k.name) = none) :
    kindDeploy k o st = (st, [clusterInfoCmd k.name], none) ∧
      ("kind", kindCreateArgs k) ∉ (kindDeploy k o st).2.1 := by
  have h : kindDeploy k o st = (st, [clusterInfoCmd k.name], none) := by
    simp [kindDeploy, hdeps, hrec, hprobe]
  refine ⟨h, ?_⟩
  rw [h]
  intro hmem
  rcases List.mem_singleton.1 hmem with heq
  simp [clusterInfoCmd] at heq

/-- Witness for C9: a concrete recycling spec against an oracle where
every binary resolves and the probe succeeds. -/
theorem kindDeploy_recycle_skips_creation_witness :
    kindDeploy
        ⟨"kne", true, "", "", false, 0, "", [], [], "", []⟩
        ⟨fun _ => true, fun _ => none, none, "/tmp/t", none, none, "", ""⟩
        ⟨Sink.logOut, "cfg"⟩ =
      (⟨Sink.logOut, "cfg"⟩, [clusterInfoCmd "kne"], none) ∧
      ("kind", kindCreateArgs ⟨"kne", true, "", "", false, 0, "", [], [], "", []⟩) ∉
        (kindDeploy
          ⟨"kne", true, "", "", false, 0, "", [], [], "", []⟩
          ⟨fun _ => true, fun _ => none, none, "/tmp/t", none, none, "", ""⟩
          ⟨Sink.logOut, "cfg"⟩).2.1 :=
  kindDeploy_recycle_skips_creation _ _ _ rfl rfl rfl

/-- The claim of C5 as stated is false: on the exit path where the
token-capture command itself fails, the function returns with the
execer's stdout still pointing at the token buffer, not restored to the
default sink. -/
theorem setupGAR_sink_not_restored_counterexample :
    ((setupGoogleArtifactRegistryAccess
        ⟨"kne", false, "", "", false, 0, "",
          ["us-west1-docker.pkg.dev"], [], "", []⟩
        ⟨fun _ => true,
         fun c => if c = gcloudTokenCmd then some "exit status 1" else none,
         none, "/tmp/kne_kind_docker", none, none, "", ""⟩
        ⟨Sink.logOut, "/home/user/.docker"⟩).2.2).isSome = true ∧
      (setupGoogleArtifactRegistryAccess
        ⟨"kne", false, "", "", false, 0, "",
          ["us-west1-docker.pkg.dev"], [], "", []⟩
        ⟨fun _ => true,
         fun c => if c = gcloudTokenCmd then some "exit status 1" else none,
         none, "/tmp/kne_kind_docker", none, none, "", ""⟩
        ⟨Sink.logOut, "/home/user/.docker"⟩).1.stdout = Sink.tokenBuf := by
  constructor <;> rfl

/-- C5 (amended): the overridden `DOCKER_CONFIG` environment variable
is restored on every exit path (its restore is deferred), and the
output sink ends at the default on every exit path except the two where
a buffer-captured command itself fails — after a failed token capture
the sink remains the token buffer, after a failed node enumeration it
remains the nodes buffer — while exits before any redirection leave the
sink untouched. -/
theorem setupGAR_restoration (k : KindSpec) (o : KindOracle) (st : ExecSt) :
    ((setupGoogleArtifactRegistryAccess k o st).1.dockerConfigEnv =
      st.dockerConfigEnv) ∧
    ((setupGoogleArtifactRegistryAccess k o st).1.stdout =
      if o.mkdirTempErr.isSome ∨ o.setenvErr.isSome ∨ o.writeConfigErr.isSome
        then st.stdout
      else if (o.execErr gcloudTokenCmd).isSome then Sink.tokenBuf
      else if (execSeq o.execErr
          (k.googleArtifactRegistries.map
            (dockerLoginCmd o.gcloudTokenOut))).2.isSome then Sink.logOut
      else if (o.execErr (kindGetNodesCmd k)).isSome then Sink.nodesBuf
      else Sink.logOut) := by
  rcases h1 : o.mkdirTempErr with _ | e1
  · rcases h2 : o.setenvErr with _ | e2
    · rcases h3 : o.writeConfigErr with _ | e3
      · rcases h4 : o.execErr gcloudTokenCmd with _ | e4
        · rcases h5 : execSeq o.execErr
              (k.googleArtifactRegistries.map
                (dockerLoginCmd o.gcloudTokenOut)) with ⟨tr5, r5⟩
          rcases r5 with _ | e5
          · rcases h6 : o.execErr (kindGetNodesCmd k) with _ | e6
            · rcases h7 : execSeq o.execErr
                  ((garNodes o.kindNodesOut).flatMap fun node =>
                    [dockerCpCmd o.tempDir node, restartKubeletCmd node]) with
                ⟨tr7, r7⟩
              simp [setupGoogleArtifactRegistryAccess, h1, h2, h3, h4, h5, h6, h7]
            · simp [setupGoogleArtifactRegistryAccess, h1, h2, h3, h4, h5, h6]
          · simp [setupGoogleArtifactRegistryAccess, h1, h2, h3, h4, h5]
        · simp [setupGoogleArtifactRegistryAccess, h1, h2, h3, h4]
      · simp [setupGoogleArtifactRegistryAccess, h1, h2, h3]
    · simp [setupGoogleArtifactRegistryAccess, h1, h2]
  · simp [setupGoogleArtifactRegistryAccess, h1]

end Deploy
